import Mathlib

/-!
Verification development for the Genesys card badge compositor
(`card_downloader.py`, class `YugiohCardDownloader`, method
`add_points_overlay`, plus its alias-reapplication caller in
`apply_alias_overlay.py`).

The compositor is shallowly embedded as a pure Lean function over an
explicit environment `Env` that supplies the behaviour of the external
imaging library (decode, font lookup, text measurement, pixel-content
transforms, encode).  Machine arithmetic is modelled exactly: Python's
`//` on non-negative ints is `Nat` division, `int(...)` on a
non-negative float is the rational floor (decimal literals such as
`1.2`, `0.6`, `1.1`, `0.5` are modelled as the exact rationals they
denote), and Python's `str(points)` is `toString` on `ℤ`.

The size computation of `Image.thumbnail` is modelled from Pillow's
implementation (`round_aspect` over the box `(316, 461)`), since the
downscaling behaviour of the compositor is decided by that library call.
-/

namespace Genesys

/-- An encoded image buffer: a byte string modelled as a list of byte values. -/
abbrev Bytes := List Nat

/-- Pixel mode of an in-memory image (`PIL.Image.mode`). -/
inductive ImageMode where
  | RGB
  | RGBA
  | other (s : String)
deriving DecidableEq, Repr

/-- An in-memory decoded image: dimensions, pixel mode, and an abstract
pixel-content token transformed by the environment's drawing operations. -/
structure PILImage where
  width : Nat
  height : Nat
  mode : ImageMode
  content : Nat
deriving DecidableEq, Repr

/-- Failure of an external imaging operation (any Python exception raised
inside the `try` block of `add_points_overlay`). -/
inductive PILError where
  | decodeError
  | fontError
  | measureError
  | compositeError
  | encodeError
deriving DecidableEq, Repr

/-- Abstract identifier of a loaded font object. -/
abbrev FontId := Nat

/-- Keyword arguments of the final `image.save(...)` call. -/
structure SaveParams where
  format : String
  quality : Nat
  optimize : Bool
deriving DecidableEq, Repr

/-- Corner coordinates of the badge background rectangle
(`rect_x1, rect_y1, rect_x2, rect_y2` in the source). -/
structure Rect where
  x1 : ℤ
  y1 : ℤ
  x2 : ℤ
  y2 : ℤ
deriving DecidableEq, Repr

/-- An RGBA fill colour. -/
abbrev ColorRGBA := Nat × Nat × Nat × Nat

/-- An RGB text colour. -/
abbrev ColorRGB := Nat × Nat × Nat

/-- Environment supplying the behaviour of the external imaging library and
the font files present on the host.  Fallible operations return `Except`;
pure pixel transforms are total functions on the abstract content token. -/
structure Env where
  /-- `Image.open(io.BytesIO(data))`: `none` models a decode exception. -/
  decode : Bytes → Option PILImage
  /-- Pixel content after `thumbnail` resampling to the given dimensions. -/
  resampleContent : Nat → Nat → Nat → Nat
  /-- `get_font(size)`: `ok none` models the no-font fallback, `error`
  models an exception escaping `get_font` (e.g. an invalid size). -/
  fontAt : ℤ → Except PILError (Option FontId)
  /-- `draw.textbbox((0, 0), text, font=font)`. -/
  textbbox : FontId → String → Except PILError (ℤ × ℤ × ℤ × ℤ)
  /-- Pixel content of `image.convert('RGBA')`. -/
  convertContent : Nat → Nat
  /-- Pixel content after `overlay_draw.rectangle([...], fill=bg_color)`. -/
  rectContent : Nat → Rect → ColorRGBA → Nat
  /-- Pixel content of `Image.alpha_composite(image, overlay)`. -/
  compositeContent : Nat → Nat → Nat
  /-- Pixel content after `draw.text((x, y), text, fill=..., font=...)`. -/
  textContent : Nat → ℤ × ℤ → String → ColorRGB → Option FontId → Nat
  /-- Pixel content after pasting onto the opaque white canvas with the
  alpha channel as mask (`rgb_image.paste(image, mask=...)`). -/
  pasteContent : Nat → Nat
  /-- `image.save(output_buffer, format=..., quality=..., optimize=...)`
  followed by `output_buffer.getvalue()`. -/
  encode : PILImage → SaveParams → Except PILError Bytes

/-- Python `int(q)` for a real value modelled as a rational: truncation
toward zero. -/
def pyInt (q : ℚ) : ℤ :=
  if 0 ≤ q then ⌊q⌋ else ⌈q⌉

/-- `max_width` from line 95 of `card_downloader.py`. -/
def maxWidth : Nat := 316

/-- `max_height` from line 95 of `card_downloader.py`. -/
def maxHeight : Nat := 461

/-- Modelled from Pillow's `Image.thumbnail` helper `round_aspect`:
`max(min(math.floor(number), math.ceil(number), key=key), 1)`, where
Python's `min` with a key returns the first argument on ties. -/
def roundAspect (q : ℚ) (key : ℤ → ℚ) : ℤ :=
  max (if key ⌊q⌋ ≤ key ⌈q⌉ then ⌊q⌋ else ⌈q⌉) 1

/-- Modelled from Pillow's `Image.thumbnail` size computation for an
integer box `(bw, bh)`: if the box already contains the image the size is
unchanged; otherwise the dimension that would overflow the box's aspect
ratio is recomputed from the image's aspect ratio with `round_aspect`.
Real arithmetic is modelled exactly over `ℚ`. -/
def thumbnailSize (w h bw bh : Nat) : Nat × Nat :=
  if bw ≥ w ∧ bh ≥ h then (w, h)
  else
    let aspect : ℚ := (w : ℚ) / (h : ℚ)
    if (bw : ℚ) / (bh : ℚ) ≥ aspect then
      ((roundAspect ((bh : ℚ) * aspect) (fun n => |aspect - (n : ℚ) / (bh : ℚ)|)).toNat, bh)
    else
      (bw, (roundAspect ((bw : ℚ) / aspect)
        (fun n => if n = 0 then 0 else |aspect - (bw : ℚ) / (n : ℚ)|)).toNat)

/-- Lines 94–97: downscale the decoded image in place when either
dimension exceeds the `316 × 461` cap. -/
def resizeStep (env : Env) (img : PILImage) : PILImage :=
  if img.width > maxWidth ∨ img.height > maxHeight then
    let sz := thumbnailSize img.width img.height maxWidth maxHeight
    { width := sz.1, height := sz.2, mode := img.mode,
      content := env.resampleContent img.content sz.1 sz.2 }
  else img

/-- Lines 105–110: `font_size = int(max(min(w, h) // 4, 80) * font_scale)`. -/
def computeFontSize (w h : Nat) (fontScale : ℚ) : ℤ :=
  pyInt ((max (min w h / 4) 80 : Nat) * fontScale)

/-- Lines 114–115: the font size actually used for measurement, falling
back to the fixed value `60` when no font object could be loaded. -/
def effectiveFontSize (fontOpt : Option FontId) (computed : ℤ) : ℤ :=
  if fontOpt.isSome then computed else 60

/-- Lines 117–118: the rendered text is `str(points)`. -/
def pointsText (points : ℤ) : String := toString points

/-- Lines 121–131: measure the text.  With a font, use the drawing
context's bounding box and inflate the height by 20 %
(`int(text_height * 1.2)`); without a font, estimate
`int(len(text) * (font_size * 0.6))` by `int(font_size * 1.1)`. -/
def measureText (env : Env) (fontOpt : Option FontId) (fontSize : ℤ)
    (text : String) : Except PILError (ℤ × ℤ) :=
  match fontOpt with
  | some f =>
    match env.textbbox f text with
    | .error e => .error e
    | .ok (x0, y0, x1, y1) =>
      .ok (x1 - x0, pyInt (((y1 - y0) : ℤ) * (6 / 5 : ℚ)))
  | none =>
    .ok (pyInt ((text.length : ℚ) * ((fontSize : ℚ) * (3 / 5 : ℚ))),
         pyInt ((fontSize : ℚ) * (11 / 10 : ℚ)))

/-- The text measurement as the spec words it, for comparison with
`measureText`: the bounding-box height inflated by 20 % (`* 1.2`), and
without a font the width estimated as `len(text) * size * 0.6` and the
height as `size * 1.1` (decimal literals again as exact rationals). -/
def measureTextSpec (env : Env) (fontOpt : Option FontId) (fontSize : ℤ)
    (text : String) : Except PILError (ℤ × ℤ) :=
  match fontOpt with
  | some f =>
    match env.textbbox f text with
    | .error e => .error e
    | .ok (x0, y0, x1, y1) =>
      .ok (x1 - x0, pyInt (((y1 - y0) : ℤ) * (12 / 10 : ℚ)))
  | none =>
    .ok (pyInt (((text.length : ℚ) * (fontSize : ℚ)) * (6 / 10 : ℚ)),
         pyInt ((fontSize : ℚ) * (11 / 10 : ℚ)))

/-- Lines 133–151: anchor the badge at the bottom-left with a 10 px
margin plus an extra 10 px vertical offset, expand by 12 px horizontally
and 8 px vertically, then clamp to the image bounds. -/
def computeRect (w h : Nat) (textWidth textHeight : ℤ) : Rect :=
  let padding : ℤ := 10
  let x : ℤ := padding
  let y : ℤ := (h : ℤ) - textHeight - padding - 10
  let rectPaddingHorizontal : ℤ := 12
  let rectPaddingVertical : ℤ := 8
  { x1 := max 0 (x - rectPaddingHorizontal)
    y1 := max 0 (y - rectPaddingVertical)
    x2 := min (w : ℤ) (x + textWidth + rectPaddingHorizontal)
    y2 := min (h : ℤ) (y + textHeight + rectPaddingVertical) }

/-- Lines 153–165: the colour ladder on `points`, checked in descending
order by the `if`/`elif` chain. -/
def chooseColors (points : ℤ) : ColorRGBA × ColorRGB :=
  if points ≥ 50 then ((255, 0, 0, 200), (255, 255, 255))
  else if points ≥ 20 then ((255, 165, 0, 200), (0, 0, 0))
  else if points ≥ 10 then ((255, 255, 0, 200), (0, 0, 0))
  else ((0, 255, 0, 200), (0, 0, 0))

/-- Lines 182–188: centre the text in the rectangle (Python `//` on
possibly negative ints is floor division), clamped to start no earlier
than 2 px inside the rectangle. -/
def textPosition (r : Rect) (textWidth textHeight : ℤ) : ℤ × ℤ :=
  let tx := r.x1 + Int.fdiv (r.x2 - r.x1 - textWidth) 2
  let ty := r.y1 + Int.fdiv (r.y2 - r.y1 - textHeight) 2
  (max (r.x1 + 2) tx, max (r.y1 + 2) ty)

/-- `Image.alpha_composite(a, b)`: requires two RGBA images of equal
size, producing an RGBA image; otherwise the library raises. -/
def alphaComposite (env : Env) (a b : PILImage) : Except PILError PILImage :=
  if a.mode = ImageMode.RGBA ∧ b.mode = ImageMode.RGBA ∧
      a.width = b.width ∧ a.height = b.height then
    .ok { width := a.width, height := a.height, mode := ImageMode.RGBA,
          content := env.compositeContent a.content b.content }
  else .error .compositeError

/-- Lines 175–176: `if image.mode != 'RGBA': image = image.convert('RGBA')`. -/
def ensureRGBA (env : Env) (img : PILImage) : PILImage :=
  if img.mode ≠ ImageMode.RGBA then
    { img with
      mode := ImageMode.RGBA
      content := env.convertContent img.content }
  else img

/-- Lines 195–200: if the composited image is RGBA, flatten it onto an
opaque white canvas using the alpha channel as a mask, yielding an RGB
image of the same size. -/
def flattenToRGB (env : Env) (img : PILImage) : PILImage :=
  if img.mode = ImageMode.RGBA then
    { width := img.width, height := img.height, mode := ImageMode.RGB,
      content := env.pasteContent img.content }
  else img

/-- The keyword arguments of the final save call on line 205:
`format='JPEG', quality=50, optimize=True`. -/
def jpegSaveParams : SaveParams :=
  { format := "JPEG", quality := 50, optimize := true }

/-- Steps 1–7 of the compositor (lines 92–200): everything inside the
`try` block up to, but not including, the final encode. -/
def prepareFinalImage (env : Env) (imageData : Bytes) (points : ℤ)
    (fontScale : ℚ) : Except PILError PILImage :=
  match env.decode imageData with
  | none => .error .decodeError
  | some image0 =>
    let image := resizeStep env image0
    let imgWidth := image.width
    let imgHeight := image.height
    let fontSizeComputed := computeFontSize imgWidth imgHeight fontScale
    match env.fontAt fontSizeComputed with
    | .error e => .error e
    | .ok fontOpt =>
      let fontSize := effectiveFontSize fontOpt fontSizeComputed
      let text := pointsText points
      match measureText env fontOpt fontSize text with
      | .error e => .error e
      | .ok (textWidth, textHeight) =>
        let rect := computeRect imgWidth imgHeight textWidth textHeight
        let colors := chooseColors points
        let overlay : PILImage :=
          { width := imgWidth, height := imgHeight, mode := ImageMode.RGBA,
            content := 0 }
        let overlay1 : PILImage :=
          { overlay with content := env.rectContent overlay.content rect colors.1 }
        let image2 : PILImage := ensureRGBA env image
        match alphaComposite env image2 overlay1 with
        | .error e => .error e
        | .ok image3 =>
          let pos := textPosition rect textWidth textHeight
          let image4 : PILImage :=
            { image3 with
              content := env.textContent image3.content pos text colors.2 fontOpt }
          .ok (flattenToRGB env image4)

/-- The whole `try` block of `add_points_overlay` (steps 1–8): prepare
the composited image and encode it. -/
def addPointsOverlayBody (env : Env) (imageData : Bytes) (points : ℤ)
    (fontScale : ℚ) : Except PILError Bytes :=
  match prepareFinalImage env imageData points fontScale with
  | .error e => .error e
  | .ok img => env.encode img jpegSaveParams

/-- `add_points_overlay` (lines 78–211): any exception inside the body is
caught by the top-level `except` and the original bytes are returned. -/
def add_points_overlay (env : Env) (imageData : Bytes) (points : ℤ)
    (fontScale : ℚ) : Bytes :=
  match addPointsOverlayBody env imageData points fontScale with
  | .ok out => out
  | .error _ => imageData

/-- The strictly sequential processing loop of the callers
(`download_all_cards` / `process_all_aliases`): each item is passed to
`add_points_overlay` in order. -/
def processBatch (env : Env) (items : List (Bytes × ℤ × ℚ)) : List Bytes :=
  items.map fun it => add_points_overlay env it.1 it.2.1 it.2.2

/-- A concrete environment for evaluating the compositor on closed
inputs: every external operation succeeds, any non-empty byte string
decodes to a 200 × 200 RGB image, every text has bounding box
`(0, 0, 50, 40)`, and encoding produces a single byte derived from the
image content. -/
def contentEnv : Env where
  decode := fun b => if b = [] then none else some ⟨200, 200, ImageMode.RGB, 0⟩
  resampleContent := fun c _ _ => c
  fontAt := fun _ => .ok (some 0)
  textbbox := fun _ _ => .ok (0, 0, 50, 40)
  convertContent := fun c => c
  rectContent := fun c _ _ => c
  compositeContent := fun a _ => a
  textContent := fun c _ _ _ _ => c
  pasteContent := fun c => c
  encode := fun img _ => .ok [img.content % 256]

/-- A concrete environment whose decode step always fails, for evaluating
the failure path on closed inputs. -/
def failEnv : Env where
  decode := fun _ => none
  resampleContent := fun c _ _ => c
  fontAt := fun _ => .ok (some 0)
  textbbox := fun _ _ => .ok (0, 0, 50, 40)
  convertContent := fun c => c
  rectContent := fun c _ _ => c
  compositeContent := fun a _ => a
  textContent := fun c _ _ _ _ => c
  pasteContent := fun c => c
  encode := fun img _ => .ok [img.content % 256]

/-! ## Helper lemmas about the thumbnail size computation -/

theorem roundAspect_cases (q : ℚ) (key : ℤ → ℚ) :
    roundAspect q key = max ⌊q⌋ 1 ∨ roundAspect q key = max ⌈q⌉ 1 := by
  unfold roundAspect
  split
  · exact Or.inl rfl
  · exact Or.inr rfl

theorem one_le_roundAspect (q : ℚ) (key : ℤ → ℚ) : 1 ≤ roundAspect q key :=
  le_max_right _ _

theorem roundAspect_le (q : ℚ) (B : ℤ) (key : ℤ → ℚ) (hq : q ≤ (B : ℚ))
    (hB : 1 ≤ B) : roundAspect q key ≤ B := by
  have hceil : ⌈q⌉ ≤ B := Int.ceil_le.mpr hq
  have hfloor : ⌊q⌋ ≤ B := le_trans (Int.floor_le_ceil q) hceil
  rcases roundAspect_cases q key with h | h <;> rw [h]
  · exact max_le hfloor hB
  · exact max_le hceil hB

theorem roundAspect_close (q : ℚ) (hq : 0 < q) (key : ℤ → ℚ) :
    |((roundAspect q key : ℤ) : ℚ) - q| < 1 := by
  have hfl : ((⌊q⌋ : ℤ) : ℚ) ≤ q := Int.floor_le q
  have hfl2 : q < ((⌊q⌋ : ℤ) : ℚ) + 1 := Int.lt_floor_add_one q
  have hcl : q ≤ ((⌈q⌉ : ℤ) : ℚ) := Int.le_ceil q
  have hcl2 : ((⌈q⌉ : ℤ) : ℚ) < q + 1 := Int.ceil_lt_add_one q
  have hceil1 : (1 : ℤ) ≤ ⌈q⌉ := by
    have : (0 : ℤ) < ⌈q⌉ := Int.lt_ceil.mpr (by exact_mod_cast hq)
    omega
  rcases roundAspect_cases q key with h | h <;> rw [h]
  · by_cases hf : (1 : ℤ) ≤ ⌊q⌋
    · rw [max_eq_left hf, abs_lt]
      constructor <;> linarith
    · have hf0 : ⌊q⌋ ≤ 1 := le_of_not_le hf
      rw [max_eq_right hf0, abs_lt]
      have hfQ : ((⌊q⌋ : ℤ) : ℚ) ≤ 0 := by
        have : ⌊q⌋ ≤ 0 := by omega
        exact_mod_cast this
      push_cast
      constructor <;> linarith
  · rw [max_eq_left hceil1, abs_lt]
    constructor <;> linarith

theorem thumbnailSize_fits (w h : ℕ) (hw : 1 ≤ w) (hh : 1 ≤ h)
    (hbig : 316 < w ∨ 461 < h) :
    (thumbnailSize w h 316 461).1 ≤ 316 ∧ (thumbnailSize w h 316 461).2 ≤ 461 ∧
    ∃ ew eh : ℚ, 0 < eh ∧ ew * (h : ℚ) = eh * (w : ℚ) ∧
      |((thumbnailSize w h 316 461).1 : ℚ) - ew| < 1 ∧
      |((thumbnailSize w h 316 461).2 : ℚ) - eh| < 1 := by
  have hguard : ¬ ((316 : ℕ) ≥ w ∧ (461 : ℕ) ≥ h) := by omega
  have hwQ : (0 : ℚ) < (w : ℚ) := by exact_mod_cast Nat.lt_of_lt_of_le Nat.zero_lt_one hw
  have hhQ : (0 : ℚ) < (h : ℚ) := by exact_mod_cast Nat.lt_of_lt_of_le Nat.zero_lt_one hh
  have haspect_pos : 0 < (w : ℚ) / (h : ℚ) := div_pos hwQ hhQ
  simp only [thumbnailSize]
  rw [if_neg hguard]
  by_cases hbr : ((316 : ℕ) : ℚ) / ((461 : ℕ) : ℚ) ≥ (w : ℚ) / (h : ℚ)
  · rw [if_pos hbr]
    have hbr' : (w : ℚ) / (h : ℚ) ≤ (316 : ℚ) / (461 : ℚ) := by push_cast at hbr; exact hbr
    have hqpos : 0 < ((461 : ℕ) : ℚ) * ((w : ℚ) / (h : ℚ)) := by positivity
    have hqle : ((461 : ℕ) : ℚ) * ((w : ℚ) / (h : ℚ)) ≤ ((316 : ℤ) : ℚ) := by
      push_cast
      calc (461 : ℚ) * ((w : ℚ) / (h : ℚ)) ≤ 461 * ((316 : ℚ) / 461) := by
            exact mul_le_mul_of_nonneg_left hbr' (by norm_num)
        _ = 316 := by norm_num
    have hra := roundAspect_le _ 316 (fun n => |(w : ℚ) / (h : ℚ) - (n : ℚ) / ((461 : ℕ) : ℚ)|) hqle (by norm_num)
    have hra1 := one_le_roundAspect (((461 : ℕ) : ℚ) * ((w : ℚ) / (h : ℚ)))
      (fun n => |(w : ℚ) / (h : ℚ) - (n : ℚ) / ((461 : ℕ) : ℚ)|)
    have hnn : (0 : ℤ) ≤ roundAspect (((461 : ℕ) : ℚ) * ((w : ℚ) / (h : ℚ)))
      (fun n => |(w : ℚ) / (h : ℚ) - (n : ℚ) / ((461 : ℕ) : ℚ)|) := by linarith
    refine ⟨Int.toNat_le.mpr hra, by norm_num, ?_⟩
    refine ⟨((461 : ℕ) : ℚ) * ((w : ℚ) / (h : ℚ)), ((461 : ℕ) : ℚ), by positivity, ?_, ?_, ?_⟩
    · rw [mul_assoc, div_mul_cancel₀ _ (ne_of_gt hhQ)]
    · have hcast : (((roundAspect (((461 : ℕ) : ℚ) * ((w : ℚ) / (h : ℚ)))
          (fun n => |(w : ℚ) / (h : ℚ) - (n : ℚ) / ((461 : ℕ) : ℚ)|)).toNat : ℕ) : ℚ)
          = ((roundAspect (((461 : ℕ) : ℚ) * ((w : ℚ) / (h : ℚ)))
          (fun n => |(w : ℚ) / (h : ℚ) - (n : ℚ) / ((461 : ℕ) : ℚ)|) : ℤ) : ℚ) := by
        exact_mod_cast congrArg (fun z : ℤ => (z : ℚ)) (Int.toNat_of_nonneg hnn)
      rw [hcast]
      exact roundAspect_close _ hqpos _
    · simp
  · rw [if_neg hbr]
    have hbr' : (316 : ℚ) / (461 : ℚ) < (w : ℚ) / (h : ℚ) := by
      push_cast at hbr
      exact lt_of_not_le hbr
    have hqpos : 0 < ((316 : ℕ) : ℚ) / ((w : ℚ) / (h : ℚ)) := by positivity
    have hqle : ((316 : ℕ) : ℚ) / ((w : ℚ) / (h : ℚ)) ≤ ((461 : ℤ) : ℚ) := by
      push_cast
      rw [div_le_iff₀ haspect_pos]
      have hstep : (461 : ℚ) * (316 / 461) < 461 * ((w : ℚ) / (h : ℚ)) :=
        mul_lt_mul_of_pos_left hbr' (by norm_num)
      have heq : (461 : ℚ) * (316 / 461) = 316 := by norm_num
      linarith
    have hra := roundAspect_le _ 461
      (fun n => if n = 0 then 0 else |(w : ℚ) / (h : ℚ) - ((316 : ℕ) : ℚ) / (n : ℚ)|) hqle (by norm_num)
    have hra1 := one_le_roundAspect (((316 : ℕ) : ℚ) / ((w : ℚ) / (h : ℚ)))
      (fun n => if n = 0 then 0 else |(w : ℚ) / (h : ℚ) - ((316 : ℕ) : ℚ) / (n : ℚ)|)
    have hnn : (0 : ℤ) ≤ roundAspect (((316 : ℕ) : ℚ) / ((w : ℚ) / (h : ℚ)))
      (fun n => if n = 0 then 0 else |(w : ℚ) / (h : ℚ) - ((316 : ℕ) : ℚ) / (n : ℚ)|) := by linarith
    refine ⟨by norm_num, Int.toNat_le.mpr hra, ?_⟩
    refine ⟨((316 : ℕ) : ℚ), ((316 : ℕ) : ℚ) / ((w : ℚ) / (h : ℚ)), hqpos, ?_, by simp, ?_⟩
    · rw [div_div_eq_mul_div, div_mul_cancel₀ _ (ne_of_gt hwQ)]
    · have hcast : (((roundAspect (((316 : ℕ) : ℚ) / ((w : ℚ) / (h : ℚ)))
          (fun n => if n = 0 then 0 else |(w : ℚ) / (h : ℚ) - ((316 : ℕ) : ℚ) / (n : ℚ)|)).toNat : ℕ) : ℚ)
          = ((roundAspect (((316 : ℕ) : ℚ) / ((w : ℚ) / (h : ℚ)))
          (fun n => if n = 0 then 0 else |(w : ℚ) / (h : ℚ) - ((316 : ℕ) : ℚ) / (n : ℚ)|) : ℤ) : ℚ) := by
        exact_mod_cast congrArg (fun z : ℤ => (z : ℚ)) (Int.toNat_of_nonneg hnn)
      rw [hcast]
      exact roundAspect_close _ hqpos _

theorem thumbnailSize_fst_le (w h : ℕ) : (thumbnailSize w h 316 461).1 ≤ 316 := by
  simp only [thumbnailSize]
  by_cases hg : (316 : ℕ) ≥ w ∧ (461 : ℕ) ≥ h
  · rw [if_pos hg]
    exact hg.1
  · rw [if_neg hg]
    by_cases hbr : ((316 : ℕ) : ℚ) / ((461 : ℕ) : ℚ) ≥ (w : ℚ) / (h : ℚ)
    · rw [if_pos hbr]
      have hbr' : (w : ℚ) / (h : ℚ) ≤ (316 : ℚ) / (461 : ℚ) := by push_cast at hbr; exact hbr
      have hqle : ((461 : ℕ) : ℚ) * ((w : ℚ) / (h : ℚ)) ≤ ((316 : ℤ) : ℚ) := by
        push_cast
        calc (461 : ℚ) * ((w : ℚ) / (h : ℚ)) ≤ 461 * ((316 : ℚ) / 461) := by
              exact mul_le_mul_of_nonneg_left hbr' (by norm_num)
          _ = 316 := by norm_num
      exact Int.toNat_le.mpr (roundAspect_le _ 316 _ hqle (by norm_num))
    · rw [if_neg hbr]

theorem resizeStep_width_le (env : Env) (img : PILImage) :
    (resizeStep env img).width ≤ 316 := by
  simp only [resizeStep, maxWidth, maxHeight]
  by_cases hg : img.width > 316 ∨ img.height > 461
  · rw [if_pos hg]
    exact thumbnailSize_fst_le img.width img.height
  · rw [if_neg hg]
    push_neg at hg
    exact hg.1

/-- C3: a decodable input with either dimension above the 316 × 461 cap
is downscaled so both output dimensions are within the cap, and the
output dimensions are within one pixel (rounding) of an exact
aspect-ratio-preserving pair; an input with both dimensions within the
cap keeps its original dimensions. -/
theorem resizeStep_cap_and_aspect (env : Env) (img : PILImage)
    (hw : 1 ≤ img.width) (hh : 1 ≤ img.height) :
    ((316 < img.width ∨ 461 < img.height) →
      (resizeStep env img).width ≤ 316 ∧ (resizeStep env img).height ≤ 461 ∧
      ∃ ew eh : ℚ, 0 < eh ∧ ew * (img.height : ℚ) = eh * (img.width : ℚ) ∧
        |((resizeStep env img).width : ℚ) - ew| < 1 ∧
        |((resizeStep env img).height : ℚ) - eh| < 1) ∧
    ((img.width ≤ 316 ∧ img.height ≤ 461) →
      (resizeStep env img).width = img.width ∧
      (resizeStep env img).height = img.height) := by
  constructor
  · intro hbig
    have hg : img.width > maxWidth ∨ img.height > maxHeight := by
      simp only [maxWidth, maxHeight]
      omega
    simp only [resizeStep]
    rw [if_pos hg]
    exact thumbnailSize_fits img.width img.height hw hh hbig
  · intro hsmall
    have hg : ¬ (img.width > maxWidth ∨ img.height > maxHeight) := by
      simp only [maxWidth, maxHeight]
      omega
    simp only [resizeStep]
    rw [if_neg hg]
    exact ⟨rfl, rfl⟩

/-- Witness for C3, at a 400 × 600 image: the output is capped at
316 × 461 on both axes. -/
theorem resizeStep_cap_witness :
    (resizeStep contentEnv ⟨400, 600, ImageMode.RGB, 7⟩).width ≤ 316 ∧
    (resizeStep contentEnv ⟨400, 600, ImageMode.RGB, 7⟩).height ≤ 461 := by
  have h := (resizeStep_cap_and_aspect contentEnv ⟨400, 600, ImageMode.RGB, 7⟩
    (by decide) (by decide)).1 (Or.inl (by decide))
  exact ⟨h.1, h.2.1⟩

/-- C9: after the downscale step `min(width, height) ≤ 316`, so the
base font size `min(width, height) // 4` is at most 79 and the maximum
with 80 always yields 80; the font size requested from the loader is
therefore `int(80 * font_scale)` for every input image — 80 at
`font_scale = 1` and 40 at `font_scale = 1/2` — and the
image-size-dependent term never influences it. -/
theorem fontSize_independent_of_image (env : Env) (img : PILImage) (fontScale : ℚ) :
    min (resizeStep env img).width (resizeStep env img).height ≤ 316 ∧
    min (resizeStep env img).width (resizeStep env img).height / 4 ≤ 79 ∧
    computeFontSize (resizeStep env img).width (resizeStep env img).height fontScale
      = pyInt ((80 : ℚ) * fontScale) ∧
    computeFontSize (resizeStep env img).width (resizeStep env img).height 1 = 80 ∧
    computeFontSize (resizeStep env img).width (resizeStep env img).height (1 / 2) = 40 := by
  have h1 : min (resizeStep env img).width (resizeStep env img).height ≤ 316 :=
    le_trans (min_le_left _ _) (resizeStep_width_le env img)
  have h2 : min (resizeStep env img).width (resizeStep env img).height / 4 ≤ 79 := by
    omega
  have h3 : max (min (resizeStep env img).width (resizeStep env img).height / 4) 80 = 80 := by
    omega
  refine ⟨h1, h2, ?_, ?_, ?_⟩
  · unfold computeFontSize
    rw [h3]
    norm_num
  · unfold computeFontSize
    rw [h3]
    norm_num [pyInt]
  · unfold computeFontSize
    rw [h3]
    norm_num [pyInt]

/-! ## Claim theorems -/

/-- C2: the badge colours are chosen by a non-overlapping threshold ladder
on `points`, checked in descending order: `points ≥ 50` gives red
`(255,0,0)` at alpha 200 with white text; `20 ≤ points < 50` orange with
black text; `10 ≤ points < 20` yellow with black text; `points < 10`
green with black text.  The boundary values 10, 20, 50 fall into the
higher bucket, and for points 5, 10, 20, 50, 100 the buckets are green,
yellow, orange, red, red. -/
theorem chooseColors_ladder :
    (∀ p : ℤ, 50 ≤ p → chooseColors p = ((255, 0, 0, 200), (255, 255, 255))) ∧
    (∀ p : ℤ, 20 ≤ p → p < 50 → chooseColors p = ((255, 165, 0, 200), (0, 0, 0))) ∧
    (∀ p : ℤ, 10 ≤ p → p < 20 → chooseColors p = ((255, 255, 0, 200), (0, 0, 0))) ∧
    (∀ p : ℤ, p < 10 → chooseColors p = ((0, 255, 0, 200), (0, 0, 0))) ∧
    chooseColors 5 = ((0, 255, 0, 200), (0, 0, 0)) ∧
    chooseColors 10 = ((255, 255, 0, 200), (0, 0, 0)) ∧
    chooseColors 20 = ((255, 165, 0, 200), (0, 0, 0)) ∧
    chooseColors 50 = ((255, 0, 0, 200), (255, 255, 255)) ∧
    chooseColors 100 = ((255, 0, 0, 200), (255, 255, 255)) := by
  refine ⟨?_, ?_, ?_, ?_, by decide, by decide, by decide, by decide, by decide⟩
  · intro p hp
    simp only [chooseColors, ge_iff_le, if_pos hp]
  · intro p hp hp'
    have : ¬ (50 : ℤ) ≤ p := by omega
    simp only [chooseColors, ge_iff_le, if_neg this, if_pos hp]
  · intro p hp hp'
    have h1 : ¬ (50 : ℤ) ≤ p := by omega
    have h2 : ¬ (20 : ℤ) ≤ p := by omega
    simp only [chooseColors, ge_iff_le, if_neg h1, if_neg h2, if_pos hp]
  · intro p hp
    have h1 : ¬ (50 : ℤ) ≤ p := by omega
    have h2 : ¬ (20 : ℤ) ≤ p := by omega
    have h3 : ¬ (10 : ℤ) ≤ p := by omega
    simp only [chooseColors, ge_iff_le, if_neg h1, if_neg h2, if_neg h3]

/-- Witness for C2: the boundary value 50 lands in the red bucket. -/
theorem chooseColors_ladder_witness :
    chooseColors 50 = ((255, 0, 0, 200), (255, 255, 255)) :=
  chooseColors_ladder.1 50 (by decide)

/-- C5: for every image size and every measured text size (including text
larger than the image), the badge rectangle — anchored at the bottom-left
with a 10 px margin plus an extra 10 px vertical offset, expanded by
12 px horizontally and 8 px vertically — is clamped so that
`0 ≤ rect_x1`, `0 ≤ rect_y1`, `rect_x2 ≤ w`, `rect_y2 ≤ h`; the
computation is total, so the geometry edge case never raises. -/
theorem computeRect_clamped (w h : Nat) (tw th : ℤ) :
    0 ≤ (computeRect w h tw th).x1 ∧ 0 ≤ (computeRect w h tw th).y1 ∧
    (computeRect w h tw th).x2 ≤ (w : ℤ) ∧ (computeRect w h tw th).y2 ≤ (h : ℤ) := by
  refine ⟨?_, ?_, ?_, ?_⟩ <;> simp [computeRect]

/-- C10: the clamped badge rectangle's left edge is always 0: the anchor
x is the constant 10 and the horizontal padding is 12, so
`x - 12 = -2` is clamped up to 0 and the badge always abuts the left edge
of the image. -/
theorem computeRect_left_edge (w h : Nat) (tw th : ℤ) :
    (computeRect w h tw th).x1 = 0 := by
  simp [computeRect]

/-- C4: the computed font size is `int(max(min(w, h) // 4, 80) * font_scale)`
(a rational floor for non-negative `font_scale`); with no font object the
size used falls back to the fixed value 60; and for the same image the
size at `font_scale = 1/2` is exactly the floor of half the size at
`font_scale = 1`, hence strictly smaller. -/
theorem computeFontSize_scaling (w h : Nat) (fontScale : ℚ) (hs : 0 ≤ fontScale) :
    computeFontSize w h fontScale = ⌊((max (min w h / 4) 80 : Nat) : ℚ) * fontScale⌋ ∧
    effectiveFontSize none (computeFontSize w h fontScale) = 60 ∧
    computeFontSize w h (1 / 2) = ⌊(computeFontSize w h 1 : ℚ) / 2⌋ ∧
    computeFontSize w h (1 / 2) < computeFontSize w h 1 := by
  set F : Nat := max (min w h / 4) 80 with hF
  have hF80 : 80 ≤ F := le_max_right _ _
  have hFpos : (0 : ℚ) ≤ (F : ℚ) := by positivity
  have h1 : computeFontSize w h 1 = (F : ℤ) := by
    simp [computeFontSize, pyInt, ← hF]
  have hhalf : computeFontSize w h (1 / 2) = ⌊(F : ℚ) / 2⌋ := by
    have : (0 : ℚ) ≤ (F : ℚ) * (1 / 2) := by positivity
    simp only [computeFontSize, pyInt, ← hF, if_pos this]
    rw [mul_one_div]
  refine ⟨?_, ?_, ?_, ?_⟩
  · simp only [computeFontSize, pyInt, ← hF, if_pos (mul_nonneg hFpos hs)]
  · simp [effectiveFontSize]
  · rw [hhalf, h1]
    norm_num
  · rw [hhalf, h1]
    have hlt : (F : ℚ) / 2 < ((F : ℤ) : ℚ) := by
      push_cast
      have : (0 : ℚ) < (F : ℚ) := by
        have : (0 : ℕ) < F := lt_of_lt_of_le (by norm_num) hF80
        exact_mod_cast this
      linarith
    exact Int.floor_lt.mpr hlt

/-- Witness for C4, at a 400 × 600 image and `font_scale = 1/2`. -/
theorem computeFontSize_scaling_witness :
    (0 : ℚ) ≤ 1 / 2 ∧
    (computeFontSize 400 600 (1 / 2) =
        ⌊((max (min 400 600 / 4) 80 : Nat) : ℚ) * (1 / 2)⌋ ∧
      effectiveFontSize none (computeFontSize 400 600 (1 / 2)) = 60 ∧
      computeFontSize 400 600 (1 / 2) = ⌊(computeFontSize 400 600 1 : ℚ) / 2⌋ ∧
      computeFontSize 400 600 (1 / 2) < computeFontSize 400 600 1) :=
  ⟨by norm_num, computeFontSize_scaling 400 600 (1 / 2) (by norm_num)⟩

/-- C1: the compositor is total (never raises to its caller): its result
is either the successful output of the body or, when any step of the
body fails, exactly the original input bytes; in particular any input
that does not decode is returned unchanged. -/
theorem add_points_overlay_fail_open (env : Env) (imageData : Bytes)
    (points : ℤ) (fontScale : ℚ) :
    (∀ e, addPointsOverlayBody env imageData points fontScale = .error e →
      add_points_overlay env imageData points fontScale = imageData) ∧
    (∀ out, addPointsOverlayBody env imageData points fontScale = .ok out →
      add_points_overlay env imageData points fontScale = out) ∧
    (env.decode imageData = none →
      add_points_overlay env imageData points fontScale = imageData) := by
  refine ⟨?_, ?_, ?_⟩
  · intro e he
    unfold add_points_overlay
    rw [he]
  · intro out hout
    unfold add_points_overlay
    rw [hout]
  · intro hdec
    unfold add_points_overlay addPointsOverlayBody prepareFinalImage
    rw [hdec]

/-- Witness for C1: bytes that fail to decode come back unchanged. -/
theorem add_points_overlay_fail_open_witness :
    add_points_overlay failEnv [1, 2, 3] 5 1 = [1, 2, 3] :=
  (add_points_overlay_fail_open failEnv [1, 2, 3] 5 1).2.2 rfl

/-- C6: the rendered text is the decimal string form of `points`, and the
measurement used by the compositor agrees with the spec's formulas: with
a font, the bounding-box width and the height inflated by 20 %; without a
font, width `int(len(text) * size * 0.6)` and height `int(size * 1.1)`. -/
theorem measureText_matches_spec (env : Env) (fontOpt : Option FontId)
    (fontSize : ℤ) (points : ℤ) :
    pointsText points = toString points ∧
    measureText env fontOpt fontSize (pointsText points)
      = measureTextSpec env fontOpt fontSize (pointsText points) := by
  refine ⟨rfl, ?_⟩
  cases fontOpt with
  | none =>
    simp only [measureText, measureTextSpec]
    rw [show (6 / 10 : ℚ) = 3 / 5 by norm_num, mul_assoc]
  | some f =>
    cases henv : env.textbbox f (pointsText points) with
    | error e => simp only [measureText, measureTextSpec, henv]
    | ok t =>
      obtain ⟨x0, y0, x1, y1⟩ := t
      simp only [measureText, measureTextSpec, henv]
      rw [show (12 / 10 : ℚ) = 6 / 5 by norm_num]

/-- `Image.alpha_composite` succeeds only on two RGBA images of equal
size, and then produces an RGBA image of that size. -/
theorem alphaComposite_mode (env : Env) (a b img : PILImage)
    (h : alphaComposite env a b = .ok img) :
    img.mode = ImageMode.RGBA ∧ img.width = a.width ∧ img.height = a.height := by
  unfold alphaComposite at h
  split at h
  · injection h with h'
    rw [← h']
    exact ⟨rfl, rfl, rfl⟩
  · exact absurd h (by simp)

/-- The flatten step turns an RGBA image into an RGB one. -/
theorem flattenToRGB_mode (env : Env) (img : PILImage)
    (h : img.mode = ImageMode.RGBA) :
    (flattenToRGB env img).mode = ImageMode.RGB := by
  unfold flattenToRGB
  rw [if_pos h]

/-- Every image successfully produced by steps 1–7 has mode RGB. -/
theorem prepareFinalImage_mode (env : Env) (imageData : Bytes) (points : ℤ)
    (fontScale : ℚ) (img : PILImage)
    (h : prepareFinalImage env imageData points fontScale = .ok img) :
    img.mode = ImageMode.RGB := by
  unfold prepareFinalImage at h
  dsimp only at h
  split at h
  · exact absurd h (by simp)
  · split at h
    · exact absurd h (by simp)
    · split at h
      · exact absurd h (by simp)
      · split at h
        · exact absurd h (by simp)
        · rename_i image3 halpha
          injection h with h'
          rw [← h']
          apply flattenToRGB_mode
          exact (alphaComposite_mode _ _ _ _ halpha).1

/-- C7: for every successful run, the result is produced by the JPEG
encoder at fixed quality 50 with size-optimization enabled, applied to an
RGB (alpha-free) image — the RGBA intermediate having been flattened —
and for an encoder that produces non-empty decodable bytes, the returned
bytes are non-empty and decodable. -/
theorem add_points_overlay_output_format (env : Env) (imageData : Bytes)
    (points : ℤ) (fontScale : ℚ)
    (hgood : ∀ img prm out, env.encode img prm = .ok out →
      out ≠ [] ∧ (env.decode out).isSome) :
    jpegSaveParams.format = "JPEG" ∧ jpegSaveParams.quality = 50 ∧
    jpegSaveParams.optimize = true ∧
    (∀ img, prepareFinalImage env imageData points fontScale = .ok img →
      img.mode = ImageMode.RGB ∧
      addPointsOverlayBody env imageData points fontScale
        = env.encode img jpegSaveParams) ∧
    (∀ out, addPointsOverlayBody env imageData points fontScale = .ok out →
      add_points_overlay env imageData points fontScale = out ∧
      out ≠ [] ∧ (env.decode out).isSome) := by
  refine ⟨rfl, rfl, rfl, ?_, ?_⟩
  · intro img hprep
    refine ⟨prepareFinalImage_mode env imageData points fontScale img hprep, ?_⟩
    unfold addPointsOverlayBody
    rw [hprep]
  · intro out hbody
    have hres : add_points_overlay env imageData points fontScale = out := by
      unfold add_points_overlay
      rw [hbody]
    refine ⟨hres, ?_⟩
    unfold addPointsOverlayBody at hbody
    cases hprep : prepareFinalImage env imageData points fontScale with
    | error e => rw [hprep] at hbody; exact absurd hbody (by simp)
    | ok img =>
      rw [hprep] at hbody
      exact hgood img jpegSaveParams out hbody

/-- Witness for C7: a concrete decodable input with points 75 under an
environment whose encoder is well-behaved. -/
theorem add_points_overlay_output_format_witness :
    add_points_overlay contentEnv [7] 75 1 = [0] ∧
    add_points_overlay contentEnv [7] 75 1 ≠ [] := by
  have happ := add_points_overlay_output_format contentEnv [7] 75 1 (by
    intro img prm out h
    simp only [contentEnv] at h
    injection h with h'
    constructor
    · rw [← h']
      simp
    · rw [← h']
      simp [contentEnv])
  have hbody : addPointsOverlayBody contentEnv [7] 75 1 = .ok [0] := by
    norm_num +decide [addPointsOverlayBody, prepareFinalImage, contentEnv, resizeStep,
      ensureRGBA, alphaComposite, flattenToRGB, measureText, maxWidth, maxHeight,
      pointsText]
  have hout := happ.2.2.2.2 [0] hbody
  exact ⟨hout.1, hout.1 ▸ hout.2.1⟩

/-- C8: the compositor is deterministic and free of cross-invocation
state: in the sequential batch loop, the output at the position of an
item is exactly the single-invocation result on that item, independent
of whatever was processed before or after; two invocations on identical
inputs inside different batches yield identical bytes. -/
theorem add_points_overlay_stateless (env : Env)
    (pre1 post1 pre2 post2 : List (Bytes × ℤ × ℚ))
    (imageData : Bytes) (points : ℤ) (fontScale : ℚ) :
    (processBatch env (pre1 ++ (imageData, points, fontScale) :: post1))[pre1.length]?
      = some (add_points_overlay env imageData points fontScale) ∧
    (processBatch env (pre1 ++ (imageData, points, fontScale) :: post1))[pre1.length]?
      = (processBatch env (pre2 ++ (imageData, points, fontScale) :: post2))[pre2.length]? := by
  have key : ∀ pre post : List (Bytes × ℤ × ℚ),
      (processBatch env (pre ++ (imageData, points, fontScale) :: post))[pre.length]?
        = some (add_points_overlay env imageData points fontScale) := by
    intro pre post
    unfold processBatch
    rw [List.map_append, List.getElem?_append_right (by simp)]
    simp
  exact ⟨key pre1 post1, (key pre1 post1).trans (key pre2 post2).symm⟩

end Genesys
